import Mathlib

/-!
Verification of the rpharma client-side catalog storefront.

The JavaScript source consists of two modules:
* `products/products-page.js` — the `ProductsPage` IIFE (filter/sort pipeline
  over the catalog), the `ProductManager` IIFE (catalog loading and lookup),
  the `UIManager` IIFE and the `Carousel` IIFE (image probing and carousel
  construction);
* the product-detail page module (`ProductDetailPage` IIFE).

We embed the data model and the pure computational content of these modules
shallowly: JavaScript arrays become `List`, product prices become `ℚ`
(JS numbers are used only through `≤` comparisons and sign tests of
differences here), fallible browser primitives (fetch, image loading,
URI encoding/decoding, locale comparison) become explicit parameters or
outcome data types, and DOM construction becomes a record of the attributes
and children the code creates.
-/

namespace RPharma

/-- A product record, as in the catalog JSON consumed by the page
(`{ id, name, description, details, category, price, icon }`). -/
structure Product where
  id : Int
  name : String
  description : String
  details : String
  category : String
  price : ℚ
  icon : String
  deriving DecidableEq, Repr

/-- The `filters` object of the `ProductsPage` module:
`{ search: '', category: '', maxPrice: 250, sortBy: 'name' }`. -/
structure FilterState where
  search : String
  category : String
  maxPrice : ℚ
  sortBy : String
  deriving DecidableEq, Repr

/-! ### String helpers

`String.prototype.includes` — substring containment — modelled on the
character lists underlying Lean strings. -/

/-- Boolean test that the first list is a prefix of the second. -/
def prefixB : List Char → List Char → Bool
  | [], _ => true
  | _ :: _, [] => false
  | a :: as, b :: bs => a == b && prefixB as bs

/-- Boolean test that `needle` occurs as a contiguous sublist of the
second argument (scanning each suffix for a prefix match). -/
def substrB (needle : List Char) : List Char → Bool
  | [] => prefixB needle []
  | b :: bs => prefixB needle (b :: bs) || substrB needle bs

/-- Model of JavaScript `hay.includes(needle)`. -/
def strIncludes (hay needle : String) : Bool :=
  substrB needle.data hay.data

/-- Model of JavaScript `s.toLowerCase()`: lower-case the string character by
character. -/
def jsToLower (s : String) : String := String.mk (s.data.map Char.toLower)

/-! ### Filter predicate (`ProductsPage.applyFilters`, inner callback)

The callback returns `false` as soon as one of the three checks fails:
search (skipped when `filters.search` is falsy, i.e. the empty string),
category (skipped when `filters.category` is falsy), price. -/

/-- The inclusion predicate of `applyFilters`: the conjunction of the
search check, the category check, and the price check, each written
exactly as in the source callback. -/
def matchesFilter (f : FilterState) (p : Product) : Bool :=
  let searchOk :=
    if f.search = "" then true
    else
      let q := jsToLower f.search
      strIncludes (jsToLower p.name) q || strIncludes (jsToLower p.description) q
  let catOk := if f.category = "" then true else p.category == f.category
  let priceOk := decide (p.price ≤ f.maxPrice)
  searchOk && catOk && priceOk

/-! ### Sorting (`ProductsPage.applySort`)

`applySort` copies `filteredProducts` and sorts the copy with
`Array.prototype.sort`, which is a stable sort; the comparator decides
"`a` may precede `b`" exactly when it returns a value `≤ 0`.  We model it
with `List.mergeSort`, which is stable, applied to the Boolean relation
"comparator result `≤ 0`". -/

/-- `(a, b) => a.price - b.price` viewed as "result `≤ 0`". -/
def priceLowLe (a b : Product) : Bool := decide (a.price ≤ b.price)

/-- `(a, b) => b.price - a.price` viewed as "result `≤ 0`". -/
def priceHighLe (a b : Product) : Bool := decide (b.price ≤ a.price)

/-- `(a, b) => a.name.localeCompare(b.name)` viewed as "result `≤ 0`".
The locale comparison primitive is modelled by the lexicographic order
on Lean strings. -/
def nameLe (a b : Product) : Bool := decide (a.name ≤ b.name)

/-- `applySort` as a function of the `sortBy` key: the `switch` selects the
comparator; `case 'name':` falls through to `default:`, so every key other
than `price-low` and `price-high` sorts by name. -/
def applySortF (sortBy : String) (l : List Product) : List Product :=
  if sortBy = "price-low" then l.mergeSort priceLowLe
  else if sortBy = "price-high" then l.mergeSort priceHighLe
  else l.mergeSort nameLe

/-- `applyFilters` as a function of the filter state and the catalog:
filter with the inclusion predicate, then sort (`applySort`). -/
def applyFiltersF (f : FilterState) (catalog : List Product) : List Product :=
  applySortF f.sortBy (catalog.filter (matchesFilter f))

/-! ### Module state of `ProductsPage`

The IIFE closes over `allProducts`, `filteredProducts` and `filters`;
`applyFilters` reassigns `filteredProducts` from `allProducts` (via
`Array.prototype.filter`, which allocates a new array) and `applySort`
reassigns it again from a spread copy, so the embedding is a state
transformer that rebuilds the `filteredProducts` field. -/

/-- The mutable module-scoped state of the `ProductsPage` IIFE. -/
structure PageState where
  allProducts : List Product
  filteredProducts : List Product
  filters : FilterState
  deriving Repr

/-- The statement `applyFilters(); ` of the module, acting on the module
state: recompute `filteredProducts` from `allProducts` and `filters`. -/
def applyFiltersS (s : PageState) : PageState :=
  { s with filteredProducts := applyFiltersF s.filters s.allProducts }

/-! ### Basic properties of the filter predicate and the comparators -/

/-- The inclusion predicate, characterised as the specification states it:
search is a case-insensitive substring match against name or description
(skipped when the search string is empty), category is exact equality
(skipped when empty), and the price is at most the maximum price. -/
theorem matchesFilter_iff (f : FilterState) (p : Product) :
    matchesFilter f p = true ↔
      (f.search = "" ∨
        strIncludes (jsToLower p.name) (jsToLower f.search) = true ∨
        strIncludes (jsToLower p.description) (jsToLower f.search) = true) ∧
      (f.category = "" ∨ p.category = f.category) ∧
      p.price ≤ f.maxPrice := by
  unfold matchesFilter
  by_cases hs : f.search = "" <;> by_cases hc : f.category = "" <;>
    simp [hs, hc, and_assoc]

theorem priceLowLe_trans :
    ∀ a b c : Product, priceLowLe a b → priceLowLe b c → priceLowLe a c := by
  intro a b c
  simp only [priceLowLe, decide_eq_true_eq]
  exact le_trans

theorem priceLowLe_total : ∀ a b : Product, priceLowLe a b || priceLowLe b a := by
  intro a b
  simp only [priceLowLe, Bool.or_eq_true, decide_eq_true_eq]
  exact le_total _ _

theorem priceHighLe_trans :
    ∀ a b c : Product, priceHighLe a b → priceHighLe b c → priceHighLe a c := by
  intro a b c
  simp only [priceHighLe, decide_eq_true_eq]
  exact fun h1 h2 => le_trans h2 h1

theorem priceHighLe_total : ∀ a b : Product, priceHighLe a b || priceHighLe b a := by
  intro a b
  simp only [priceHighLe, Bool.or_eq_true, decide_eq_true_eq]
  exact le_total _ _

theorem nameLe_trans :
    ∀ a b c : Product, nameLe a b → nameLe b c → nameLe a c := by
  intro a b c
  simp only [nameLe, decide_eq_true_eq]
  exact le_trans

theorem nameLe_total : ∀ a b : Product, nameLe a b || nameLe b a := by
  intro a b
  simp only [nameLe, Bool.or_eq_true, decide_eq_true_eq]
  exact le_total _ _

/-- Membership is invariant under `applySort` (the sort permutes its input). -/
theorem mem_applySortF (sortBy : String) (l : List Product) (p : Product) :
    p ∈ applySortF sortBy l ↔ p ∈ l := by
  unfold applySortF
  split_ifs <;> exact List.mem_mergeSort

/-- Sorting an already-sorted list (with any of the three keys) is the
identity, so `applySort` is idempotent for every key. -/
theorem applySortF_idem (sortBy : String) (l : List Product) :
    applySortF sortBy (applySortF sortBy l) = applySortF sortBy l := by
  unfold applySortF
  split_ifs
  · exact List.mergeSort_of_sorted
      (List.sorted_mergeSort priceLowLe_trans priceLowLe_total l)
  · exact List.mergeSort_of_sorted
      (List.sorted_mergeSort priceHighLe_trans priceHighLe_total l)
  · exact List.mergeSort_of_sorted
      (List.sorted_mergeSort nameLe_trans nameLe_total l)

/-! ### Sample data for concrete instantiations -/

/-- Sample product (cf. the scenario in the specification). -/
def amlo : Product := ⟨1, "Amlo", "Amlodipine tablet", "det", "cardiac", 10, "amlo"⟩

/-- Sample product (cf. the scenario in the specification). -/
def zinc : Product := ⟨2, "Zinc", "Zinc supplement", "det", "supplement", 5, "zinc"⟩

/-- Sample two-product catalog. -/
def sampleCatalog : List Product := [amlo, zinc]

/-! ### Claims about the filter/sort pipeline -/

/-- Claim C1: for every catalog and filter state, `applyFilters` produces
exactly the products of the catalog satisfying all three inclusion
predicates — case-insensitive substring match of the search string against
name or description (skipped when the search is empty), exact equality of
the category filter (skipped when empty), and price at most `maxPrice` —
and no other products. -/
theorem applyFilters_exact (C : List Product) (S : FilterState) (p : Product) :
    p ∈ applyFiltersF S C ↔
      p ∈ C ∧
      (S.search = "" ∨
        strIncludes (jsToLower p.name) (jsToLower S.search) = true ∨
        strIncludes (jsToLower p.description) (jsToLower S.search) = true) ∧
      (S.category = "" ∨ p.category = S.category) ∧
      p.price ≤ S.maxPrice := by
  rw [applyFiltersF, mem_applySortF, List.mem_filter, matchesFilter_iff]

/-- Concrete instantiation of `applyFilters_exact`: with an empty search and
category and a price cap of 8, the sample catalog keeps exactly `zinc`. -/
theorem applyFilters_exact_witness :
    zinc ∈ applyFiltersF ⟨"", "", 8, "price-low"⟩ sampleCatalog ∧
    ¬ amlo ∈ applyFiltersF ⟨"", "", 8, "price-low"⟩ sampleCatalog :=
  ⟨(applyFilters_exact sampleCatalog ⟨"", "", 8, "price-low"⟩ zinc).mpr (by decide),
   fun h => by
    have := (applyFilters_exact sampleCatalog ⟨"", "", 8, "price-low"⟩ amlo).mp h
    revert this
    decide⟩

/-- Claim C2: `applySort` permutes its input and orders it stably:
for `price-low` every adjacent pair of the result is ascending in price,
for `price-high` descending in price, and for `name` — and for every other
key, since `case 'name':` falls through to `default:` — ascending by name;
moreover any pair already in comparator order is kept in that order
(stability). -/
theorem applySort_spec (sortBy : String) (l : List Product) :
    (applySortF sortBy l).Perm l ∧
    (sortBy = "price-low" →
      List.Chain' (fun a b => a.price ≤ b.price) (applySortF sortBy l) ∧
      ∀ a b : Product, a.price ≤ b.price → [a, b].Sublist l →
        [a, b].Sublist (applySortF sortBy l)) ∧
    (sortBy = "price-high" →
      List.Chain' (fun a b => b.price ≤ a.price) (applySortF sortBy l) ∧
      ∀ a b : Product, b.price ≤ a.price → [a, b].Sublist l →
        [a, b].Sublist (applySortF sortBy l)) ∧
    (sortBy ≠ "price-low" → sortBy ≠ "price-high" →
      List.Chain' (fun a b => a.name ≤ b.name) (applySortF sortBy l) ∧
      ∀ a b : Product, a.name ≤ b.name → [a, b].Sublist l →
        [a, b].Sublist (applySortF sortBy l)) := by
  refine ⟨?_, ?_, ?_, ?_⟩
  · unfold applySortF
    split_ifs <;> exact List.mergeSort_perm _ _
  · intro h
    rw [applySortF, if_pos h]
    refine ⟨((List.sorted_mergeSort priceLowLe_trans priceLowLe_total l).imp
      (fun hab => of_decide_eq_true hab)).chain', ?_⟩
    intro a b hab hsub
    exact List.pair_sublist_mergeSort priceLowLe_trans priceLowLe_total
      (decide_eq_true hab) hsub
  · intro h
    have hne : sortBy ≠ "price-low" := by simp [h]
    rw [applySortF, if_neg hne, if_pos h]
    refine ⟨((List.sorted_mergeSort priceHighLe_trans priceHighLe_total l).imp
      (fun hab => of_decide_eq_true hab)).chain', ?_⟩
    intro a b hab hsub
    exact List.pair_sublist_mergeSort priceHighLe_trans priceHighLe_total
      (decide_eq_true hab) hsub
  · intro h1 h2
    rw [applySortF, if_neg h1, if_neg h2]
    refine ⟨((List.sorted_mergeSort nameLe_trans nameLe_total l).imp
      (fun hab => of_decide_eq_true hab)).chain', ?_⟩
    intro a b hab hsub
    exact List.pair_sublist_mergeSort nameLe_trans nameLe_total
      (decide_eq_true hab) hsub

/-- Concrete instantiation of `applySort_spec` for all three sort keys on the
sample catalog, including one stability instance. -/
theorem applySort_spec_witness :
    List.Chain' (fun a b : Product => a.price ≤ b.price)
      (applySortF ("price-low") sampleCatalog) ∧
    List.Chain' (fun a b : Product => b.price ≤ a.price)
      (applySortF ("price-high") sampleCatalog) ∧
    List.Chain' (fun a b : Product => a.name ≤ b.name)
      (applySortF ("name") sampleCatalog) ∧
    List.Sublist [zinc, amlo] (applySortF ("price-low") [zinc, amlo]) :=
  ⟨((applySort_spec ("price-low") sampleCatalog).2.1 rfl).1,
   ((applySort_spec ("price-high") sampleCatalog).2.2.1 rfl).1,
   (((applySort_spec ("name") sampleCatalog).2.2.2 (by decide) (by decide)).1),
   ((applySort_spec ("price-low") [zinc, amlo]).2.1 rfl).2 zinc amlo (by decide)
     (List.Sublist.refl _)⟩

/-- Claim C4: running `applyFilters` (including its `applySort` step) on the
module state leaves `allProducts` untouched, element for element and in
order; the pipeline only rebuilds the derived `filteredProducts` view. -/
theorem applyFilters_frame (s : PageState) :
    (applyFiltersS s).allProducts = s.allProducts ∧
    (applyFiltersS s).filters = s.filters := ⟨rfl, rfl⟩

/-- Claim C5: the pipeline is idempotent, both as the module-state operation
(running `applyFilters` a second time with unchanged state yields the same
`filteredProducts`) and as the pure catalog function (re-applying filter
and sort to an already filtered and sorted list changes nothing). -/
theorem applyFilters_idempotent (s : PageState) (S : FilterState) (C : List Product) :
    (applyFiltersS (applyFiltersS s)).filteredProducts
        = (applyFiltersS s).filteredProducts ∧
    applyFiltersF S (applyFiltersF S C) = applyFiltersF S C := by
  constructor
  · rfl
  · unfold applyFiltersF
    have hfix :
        (applySortF S.sortBy (C.filter (matchesFilter S))).filter (matchesFilter S)
          = applySortF S.sortBy (C.filter (matchesFilter S)) := by
      refine List.filter_eq_self.mpr ?_
      intro a ha
      exact List.of_mem_filter ((mem_applySortF _ _ _).mp ha)
    rw [hfix, applySortF_idem]

/-! ### `ProductManager.loadProducts`

The fetch of `products.json` is modelled by an explicit outcome value:
either the fetch promise rejects, or a response arrives with an `ok` flag,
a status, and a body that either parses as a product list or fails to parse
(`response.json()` throwing).  The `try`/`catch` in the source catches the
rejection, the `HTTP error` thrown on `!response.ok`, and the parse error
alike, and returns `[]`. -/

/-- Outcome of `fetch(productsPath)` followed by `response.json()`. -/
inductive FetchOutcome where
  | fetchError
  | response (ok : Bool) (status : Nat) (body : Option (List Product))
  deriving DecidableEq, Repr

/-- `ProductManager.loadProducts` as a function of the fetch outcome. -/
def loadProducts : FetchOutcome → List Product
  | .fetchError => []
  | .response ok _ body =>
    if ok then
      match body with
      | some ps => ps
      | none => []
    else []

/-- Claim C7: `loadProducts` never raises to its caller — it is a total
function into product lists — and on a failed fetch or a non-success
status it returns the empty catalog, so the system behaves as if zero
products exist. -/
theorem loadProducts_error_empty :
    loadProducts FetchOutcome.fetchError = [] ∧
    (∀ (status : Nat) (body : Option (List Product)),
      loadProducts (FetchOutcome.response false status body) = []) ∧
    (∀ o : FetchOutcome, loadProducts o = [] ∨
      ∃ ps status, o = FetchOutcome.response true status (some ps) ∧
        loadProducts o = ps) := by
  refine ⟨rfl, fun _ _ => rfl, ?_⟩
  intro o
  match o with
  | .fetchError => exact Or.inl rfl
  | .response false st body => exact Or.inl rfl
  | .response true st none => exact Or.inl rfl
  | .response true st (some ps) => exact Or.inr ⟨ps, st, rfl, rfl⟩

/-! ### The product-detail page (`ProductDetailPage.init`)

`init` reads the `id` query parameter, parses it with `parseInt`, and
branches on the truthiness of the result: `NaN` and `0` are falsy.  A
missing parameter gives `parseInt(null)`, i.e. `NaN`.  We model `parseInt`
(base 10, no hexadecimal form) on the character list: skip leading
whitespace, read an optional sign, then a nonempty run of decimal digits;
`none` models `NaN`. -/

/-- The digit run at the head of a character list, as a number; `none` when
there is no leading digit. -/
def parseDigits (l : List Char) : Option Nat :=
  let ds := l.takeWhile Char.isDigit
  if ds.isEmpty then none
  else some (ds.foldl (fun acc c => 10 * acc + (c.toNat - 48)) 0)

/-- Model of JavaScript `parseInt(s)` on decimal inputs. -/
def jsParseInt (s : String) : Option Int :=
  let l := s.data.dropWhile (fun c => c = ' ' || c = '\t' || c = '\n' || c = '\r')
  match l with
  | '-' :: rest => (parseDigits rest).map (fun n => -(n : Int))
  | '+' :: rest => (parseDigits rest).map (fun n => (n : Int))
  | rest => (parseDigits rest).map (fun n => (n : Int))

/-- `parseInt(urlParams.get('id'))`: a missing parameter is `null`, and
`parseInt(null)` parses the string `"null"`, which yields `NaN`. -/
def jsParseIntOpt : Option String → Option Int
  | none => none
  | some s => jsParseInt s

/-- `ProductManager.getById`: `products.find(p => p.id === parseInt(id))`;
the argument is already a number here and `parseInt` of an integral number
is that integer. -/
def getById (products : List Product) (n : Int) : Option Product :=
  products.find? (fun p => p.id == n)

/-- The three user-visible outcomes of `ProductDetailPage.init`. -/
inductive DetailOutcome where
  | shown (p : Product)
  | notFound
  | noProduct
  deriving DecidableEq, Repr

/-- `ProductDetailPage.init` as a function of the catalog and the raw query
parameter.  `if (productId)` is false exactly for `NaN` (`none`) and `0`. -/
def detailInit (catalog : List Product) (idParam : Option String) : DetailOutcome :=
  match jsParseIntOpt idParam with
  | none => .noProduct
  | some n =>
    if n = 0 then .noProduct
    else
      match getById catalog n with
      | some p => .shown p
      | none => .notFound

/-- A string that consists of an optional sign followed by a nonempty run of
decimal digits — a well-formed integer identifier. -/
def isIntegerLiteral (s : String) : Bool :=
  let core := match s.data with
    | '-' :: rest => rest
    | '+' :: rest => rest
    | rest => rest
  !core.isEmpty && core.all Char.isDigit

/-- Claim C6 falsified as stated: `"0"` is a well-formed integer identifier
matching no product of the sample catalog, yet the page shows the
"no product specified" message, not "product not found" — `parseInt`
returns `0`, which is falsy, so `if (productId)` takes the else branch. -/
theorem detailInit_zero_counterexample :
    isIntegerLiteral ("0") = true ∧
    (∀ p ∈ sampleCatalog, p.id ≠ 0) ∧
    detailInit sampleCatalog (some ("0")) = DetailOutcome.noProduct ∧
    detailInit sampleCatalog (some ("0")) ≠ DetailOutcome.notFound := by
  refine ⟨by decide, by decide, by decide, by decide⟩

/-- Claim C6 (amended): if the navigation identifier is missing or does not
parse to a nonzero integer, the page shows the "no product specified"
message; for every identifier parsing to a nonzero integer that matches no
product in the catalog, the page shows the "product not found" message —
never the other message, and `detailInit` is total, so never a hard
failure. -/
theorem detailInit_spec (catalog : List Product) (idParam : Option String) :
    (jsParseIntOpt idParam = none ∨ jsParseIntOpt idParam = some 0 →
      detailInit catalog idParam = DetailOutcome.noProduct) ∧
    (∀ n : Int, jsParseIntOpt idParam = some n → n ≠ 0 →
      (∀ p ∈ catalog, p.id ≠ n) →
      detailInit catalog idParam = DetailOutcome.notFound) := by
  constructor
  · intro h
    unfold detailInit
    rcases h with h | h <;> simp [h]
  · intro n hn hnz hnone
    have hfind : getById catalog n = none := by
      rw [getById, List.find?_eq_none]
      intro p hp
      simpa using hnone p hp
    unfold detailInit
    rw [hn]
    simp [hnz, hfind]

/-- Concrete instantiation of `detailInit_spec`: a missing parameter shows
"no product specified"; the unresolved identifier `"99"` shows "product
not found". -/
theorem detailInit_spec_witness :
    detailInit sampleCatalog none = DetailOutcome.noProduct ∧
    detailInit sampleCatalog (some ("99")) = DetailOutcome.notFound :=
  ⟨(detailInit_spec sampleCatalog none).1 (Or.inl rfl),
   (detailInit_spec sampleCatalog (some ("99"))).2 99 (by decide) (by decide)
     (by decide)⟩

/-! ### Carousel image prober (`Carousel.probeImages`)

`probeImages(folder)` walks indices `1..MAX_IMAGES`; at each index it tries
the extensions in priority order and keeps the first URL whose image load
succeeds, stopping at the first index where every extension fails.  The
browser primitives are an explicit environment: `decodeURIComponent`,
`encodeURIComponent`, and the load-success oracle of `loadImage` (which
resolves `true`/`false`, never rejecting).  `basePath` is the module-scoped
constant computed from the page location.  Besides the URL list, the
embedding returns the log of every URL whose load was attempted. -/

/-- `const MAX_IMAGES = 12`. -/
def MAX_IMAGES : Nat := 12

/-- `const EXTENSIONS = ['jpeg', 'jpg', 'png']`. -/
def EXTENSIONS : List String := ["jpeg", "jpg", "png"]

/-- The browser-provided primitives used by the prober. -/
structure ProbeEnv where
  basePath : String
  decode : String → String
  encode : String → String
  loadOk : String → Bool

/-- JavaScript whitespace test for `String.prototype.trim` (ASCII part). -/
def isWsChar (c : Char) : Bool :=
  c = ' ' || c = '\t' || c = '\n' || c = '\r' || c = '\x0b' || c = '\x0c'

/-- Model of JavaScript `s.trim()`: drop whitespace from both ends. -/
def jsTrim (s : String) : String :=
  String.mk (((s.data.dropWhile isWsChar).reverse.dropWhile isWsChar).reverse)

/-- Model of `.replace(/%2F/g, '/')`: replace every (left-to-right,
non-overlapping) occurrence of `%2F` by `/`. -/
def replace2F : List Char → List Char
  | [] => []
  | '%' :: '2' :: 'F' :: rest => '/' :: replace2F rest
  | c :: rest => c :: replace2F rest

/-- The candidate URL `` `${basePath}${encodedFolder}/${i}.${ext}` ``. -/
def mkUrl (env : ProbeEnv) (encodedFolder : String) (i : Nat) (ext : String) : String :=
  env.basePath ++ encodedFolder ++ "/" ++ toString i ++ "." ++ ext

/-- The encoded folder used to build URLs:
`encodeURIComponent(decodeURIComponent(folder).trim()).replace(/%2F/g, '/')`. -/
def probeEf (env : ProbeEnv) (folder : String) : String :=
  String.mk (replace2F (env.encode (jsTrim (env.decode folder))).data)

/-- The inner `for (const ext of EXTENSIONS)` loop at index `i`: the first
successful URL (if any) together with the log of attempted URLs. -/
def probeExts (env : ProbeEnv) (ef : String) (i : Nat) :
    List String → Option String × List String
  | [] => (none, [])
  | ext :: rest =>
    let url := mkUrl env ef i ext
    if env.loadOk url then (some url, [url])
    else
      let r := probeExts env ef i rest
      (r.1, url :: r.2)

/-- The URL recorded at index `i`: the first extension in priority order
whose candidate URL loads. -/
def firstHit (env : ProbeEnv) (ef : String) (i : Nat) : Option String :=
  (probeExts env ef i EXTENSIONS).1

/-- The outer `for (let i = 1; i <= MAX_IMAGES; i++)` loop, by remaining
iteration count: collected URLs and the attempt log.  `if (!found) break`
ends the walk at the first index with no successful extension. -/
def probeLoop (env : ProbeEnv) (ef : String) : Nat → Nat → List String × List String
  | _, 0 => ([], [])
  | i, fuel + 1 =>
    let step := probeExts env ef i EXTENSIONS
    match step.1 with
    | some url =>
      let rest := probeLoop env ef (i + 1) fuel
      (url :: rest.1, step.2 ++ rest.2)
    | none => ([], step.2)

/-- `Carousel.probeImages`, with the attempt log: the two early returns for
a falsy `folder` and for a blank decoded folder perform no load at all. -/
def probeImagesA (env : ProbeEnv) (folder : String) : List String × List String :=
  if folder = "" then ([], [])
  else
    let decoded := jsTrim (env.decode folder)
    if decoded = "" then ([], [])
    else probeLoop env (probeEf env folder) 1 MAX_IMAGES

/-- The URL list returned by `Carousel.probeImages`. -/
def probeImages (env : ProbeEnv) (folder : String) : List String :=
  (probeImagesA env folder).1

/-! #### Properties of the probe loop -/

theorem probeLoop_length (env : ProbeEnv) (ef : String) :
    ∀ (fuel i : Nat), (probeLoop env ef i fuel).1.length ≤ fuel := by
  intro fuel
  induction fuel with
  | zero => intro i; simp [probeLoop]
  | succ n ih =>
    intro i
    rw [probeLoop]
    cases h : (probeExts env ef i EXTENSIONS).1 with
    | none => simp
    | some url => simpa using ih (i + 1)

theorem probeLoop_get (env : ProbeEnv) (ef : String) :
    ∀ (fuel i k : Nat), k < (probeLoop env ef i fuel).1.length →
      (probeLoop env ef i fuel).1[k]? = firstHit env ef (i + k) := by
  intro fuel
  induction fuel with
  | zero => intro i k hk; simp [probeLoop] at hk
  | succ n ih =>
    intro i k hk
    rw [probeLoop] at hk ⊢
    cases h : (probeExts env ef i EXTENSIONS).1 with
    | none => rw [h] at hk; simp at hk
    | some url =>
      rw [h] at hk
      dsimp only at hk ⊢
      cases k with
      | zero => simpa [firstHit] using h.symm
      | succ m =>
        simp only [List.getElem?_cons_succ]
        have hm : m < (probeLoop env ef (i + 1) n).1.length := by
          simpa using Nat.lt_of_succ_lt_succ hk
        rw [ih (i + 1) m hm]
        congr 1
        omega

theorem probeLoop_stop (env : ProbeEnv) (ef : String) :
    ∀ (fuel i : Nat), (probeLoop env ef i fuel).1.length < fuel →
      firstHit env ef (i + (probeLoop env ef i fuel).1.length) = none := by
  intro fuel
  induction fuel with
  | zero => intro i h; omega
  | succ n ih =>
    intro i h
    rw [probeLoop] at h ⊢
    cases hs : (probeExts env ef i EXTENSIONS).1 with
    | none => simpa [firstHit] using hs
    | some url =>
      rw [hs] at h
      dsimp only at h ⊢
      have hlt : (probeLoop env ef (i + 1) n).1.length < n := by
        simpa using Nat.lt_of_succ_lt_succ h
      have := ih (i + 1) hlt
      simpa [Nat.add_comm, Nat.add_assoc, Nat.add_left_comm] using this

theorem probeExts_eq_find (env : ProbeEnv) (ef : String) (i : Nat) :
    ∀ exts : List String,
      (probeExts env ef i exts).1 = (exts.map (mkUrl env ef i)).find? env.loadOk := by
  intro exts
  induction exts with
  | nil => rfl
  | cons ext rest ih =>
    by_cases h : env.loadOk (mkUrl env ef i ext) <;>
      simp [probeExts, List.find?, h, ih]

/-- Claim C3: for every environment and every folder identifier that is
non-empty and does not trim to blank, `probeImages` returns at most
`MAX_IMAGES` URLs; the entry at position `k` is the URL recorded for index
`k + 1` (so the URLs come one per index, in ascending index order); the
recorded URL of an index is the first extension in the priority order
`['jpeg', 'jpg', 'png']` whose candidate URL loads; probing stops at the
first index with no successful extension (when fewer than `MAX_IMAGES`
URLs are returned, the next index has no hit); and in particular when
indices 1, 2, 3 have hits and index 4 has none, exactly 3 URLs are
returned. -/
theorem probeImages_spec (env : ProbeEnv) (folder : String)
    (h1 : folder ≠ "") (h2 : jsTrim (env.decode folder) ≠ "") :
    (probeImages env folder).length ≤ MAX_IMAGES ∧
    (∀ k, k < (probeImages env folder).length →
      (probeImages env folder)[k]? = firstHit env (probeEf env folder) (1 + k)) ∧
    (∀ i, firstHit env (probeEf env folder) i =
      (EXTENSIONS.map (mkUrl env (probeEf env folder) i)).find? env.loadOk) ∧
    ((probeImages env folder).length < MAX_IMAGES →
      firstHit env (probeEf env folder) (1 + (probeImages env folder).length) = none) ∧
    ((firstHit env (probeEf env folder) 1).isSome ∧
      (firstHit env (probeEf env folder) 2).isSome ∧
      (firstHit env (probeEf env folder) 3).isSome ∧
      firstHit env (probeEf env folder) 4 = none →
      (probeImages env folder).length = 3) := by
  have heq : probeImages env folder
      = (probeLoop env (probeEf env folder) 1 MAX_IMAGES).1 := by
    simp only [probeImages, probeImagesA, if_neg h1, if_neg h2]
  rw [heq]
  refine ⟨probeLoop_length env (probeEf env folder) MAX_IMAGES 1,
    fun k hk => probeLoop_get env (probeEf env folder) MAX_IMAGES 1 k hk,
    fun i => probeExts_eq_find env (probeEf env folder) i EXTENSIONS,
    fun h => probeLoop_stop env (probeEf env folder) MAX_IMAGES 1 h, ?_⟩
  rintro ⟨hs1, hs2, hs3, hs4⟩
  have hM : MAX_IMAGES = 12 := rfl
  have hlen := probeLoop_length env (probeEf env folder) MAX_IMAGES 1
  by_contra hne
  have h3 : ¬ (probeLoop env (probeEf env folder) 1 MAX_IMAGES).1.length < 3 := by
    intro hlt
    have hnone := probeLoop_stop env (probeEf env folder) MAX_IMAGES 1 (by omega)
    rcases (by omega :
        (probeLoop env (probeEf env folder) 1 MAX_IMAGES).1.length = 0 ∨
        (probeLoop env (probeEf env folder) 1 MAX_IMAGES).1.length = 1 ∨
        (probeLoop env (probeEf env folder) 1 MAX_IMAGES).1.length = 2) with h | h | h <;>
      rw [h] at hnone <;> norm_num at hnone <;>
        simp [hnone] at hs1 hs2 hs3
  have h4 : ¬ 3 < (probeLoop env (probeEf env folder) 1 MAX_IMAGES).1.length := by
    intro hgt
    have hval := probeLoop_get env (probeEf env folder) MAX_IMAGES 1 3 hgt
    norm_num at hval
    rw [hs4] at hval
    have := List.getElem?_eq_none_iff.mp hval
    omega
  omega

/-- A concrete environment for the prober: identity URI coding, and images
present exactly at `f/1.jpg`, `f/2.jpeg` and `f/3.png` (so index 1 is
found by the second extension, and index 4 has no extension at all). -/
def envThree : ProbeEnv :=
  ⟨"", fun s => s, fun s => s,
    fun u => decide (u ∈ (["f/1.jpg", "f/2.jpeg", "f/3.png"] : List String))⟩

/-- Concrete instantiation of `probeImages_spec`: with files at indices
1, 2, 3 and nothing at index 4, exactly 3 URLs are returned. -/
theorem probeImages_spec_witness : (probeImages envThree ("f")).length = 3 := by
  have h := probeImages_spec envThree ("f") (by decide) (by decide)
  exact h.2.2.2.2 ⟨by decide, by decide, by decide, by decide⟩

/-- Claim C8: for every environment, a folder identifier that is empty — or
that decodes and trims to the empty string — makes `probeImages` return
the empty sequence, with an empty attempt log: not a single image load is
attempted. -/
theorem probeImages_empty (env : ProbeEnv) (folder : String)
    (h : folder = "" ∨ jsTrim (env.decode folder) = "") :
    probeImages env folder = [] ∧ (probeImagesA env folder).2 = [] := by
  have : probeImagesA env folder = ([], []) := by
    rcases h with h | h
    · simp [probeImagesA, h]
    · by_cases h0 : folder = "" <;> simp [probeImagesA, h0, h]
  rw [probeImages, this]
  exact ⟨rfl, rfl⟩

/-- Concrete instantiation of `probeImages_empty`: the empty identifier and
a blank identifier both produce no URLs and no attempts. -/
theorem probeImages_empty_witness :
    (probeImages envThree ("") = [] ∧ (probeImagesA envThree ("")).2 = []) ∧
    (probeImages envThree ("  ") = [] ∧ (probeImagesA envThree ("  ")).2 = []) :=
  ⟨probeImages_empty envThree ("") (Or.inl rfl),
   probeImages_empty envThree ("  ") (Or.inr (by decide))⟩

/-! ### Carousel renderer (`Carousel.create`)

`create(container, urls = [], opts = {})` destructures
`const { auto = true, interval = 7000, controls = false } = opts`, clears
the container, renders a fallback glyph when `urls` is empty, and otherwise
builds the carousel element: `data-bs-ride="carousel"` when `auto`,
`data-bs-interval` when `interval` is truthy, one item per URL with the
first marked active, previous/next buttons when `controls`, and a Bootstrap
configuration `{ interval: auto ? interval : false, ride: auto ? 'carousel'
: false }`.  The embedding records exactly these observable attributes. -/

/-- The `opts` argument; `none` fields model absent properties, filled by
the destructuring defaults. -/
structure CarouselOpts where
  auto : Option Bool
  interval : Option Nat
  controls : Option Bool
  deriving DecidableEq, Repr

/-- `const { auto = true } = opts`. -/
def optAuto (o : CarouselOpts) : Bool := o.auto.getD true

/-- `const { interval = 7000 } = opts`. -/
def optInterval (o : CarouselOpts) : Nat := o.interval.getD 7000

/-- `const { controls = false } = opts`. -/
def optControls (o : CarouselOpts) : Bool := o.controls.getD false

/-- The observable shape of the carousel element `create` builds:
whether `data-bs-ride="carousel"` is set, the `data-bs-interval` attribute,
the items as (image source, is-active) pairs, whether previous/next control
buttons are appended, and the `ride`/`interval` of the Bootstrap
configuration (`none` models `false`). -/
structure CarouselDom where
  rideAttr : Bool
  intervalAttr : Option Nat
  items : List (String × Bool)
  hasControls : Bool
  cfgRide : Bool
  cfgInterval : Option Nat
  deriving DecidableEq, Repr

/-- Result of `Carousel.create`: missing container (`if (!container)
return`), empty-URL fallback glyph, or a built carousel element. -/
inductive CreateResult where
  | noContainer
  | fallback
  | built (dom : CarouselDom)
  deriving DecidableEq, Repr

/-- `Carousel.create` as a function of container presence, the URL list and
the options. -/
def create (hasContainer : Bool) (urls : List String) (opts : CarouselOpts) :
    CreateResult :=
  if !hasContainer then .noContainer
  else if urls.isEmpty then .fallback
  else
    .built
      { rideAttr := optAuto opts
        intervalAttr :=
          if optInterval opts ≠ 0 then some (optInterval opts) else none
        items := urls.enum.map (fun e => (e.2, e.1 == 0))
        hasControls := optControls opts
        cfgRide := optAuto opts
        cfgInterval := if optAuto opts then some (optInterval opts) else none }

/-- An options value with `auto: true` and `controls: true`. -/
def optsAutoControls : CarouselOpts := ⟨some true, some 7000, some true⟩

/-- Claim C9 falsified as stated: the `if (controls)` branch is independent
of `auto`, so an options value with `auto = true` and `controls = true`
renders an auto-riding carousel that does carry previous/next control
buttons. -/
theorem create_controls_counterexample :
    optAuto optsAutoControls = true ∧
    create true [("u1")] optsAutoControls
      = CreateResult.built
          ⟨true, some 7000, [(("u1"), true)], true, true, some 7000⟩ := by
  exact ⟨rfl, by decide⟩

/-- First components of the carousel items built over `enumFrom`: the URLs
themselves, in order. -/
theorem enumFrom_pair_fst :
    ∀ (l : List String) (k : Nat),
      ((List.enumFrom k l).map
        (fun e : Nat × String => (e.2, e.1 == 0))).map Prod.fst = l := by
  intro l
  induction l with
  | nil => intro k; rfl
  | cons x xs ih =>
    intro k
    simp only [List.enumFrom_cons, List.map_cons]
    rw [ih (k + 1)]

/-- Second components of the carousel items built over `enumFrom` from a
positive index: all inactive. -/
theorem enumFrom_pair_snd :
    ∀ (l : List String) (k : Nat),
      ((List.enumFrom (k + 1) l).map
        (fun e : Nat × String => (e.2, e.1 == 0))).map Prod.snd
        = List.replicate l.length false := by
  intro l
  induction l with
  | nil => intro k; rfl
  | cons x xs ih =>
    intro k
    simp only [List.enumFrom_cons, List.map_cons, List.length_cons,
      List.replicate_succ]
    rw [ih (k + 1)]
    simp

/-- Claim C9 (amended): for every non-empty URL list and every options value
resolving to `auto = true` and `controls = false` (the destructuring
default), `create` builds a carousel that rides automatically
(`data-bs-ride="carousel"` and a Bootstrap configuration with
`ride: 'carousel'` and the resolved `interval` in milliseconds), whose
items are the URLs in order with exactly the first item active, and which
carries no previous/next control buttons. -/
theorem create_auto_spec (urls : List String) (opts : CarouselOpts)
    (hu : urls ≠ []) (ha : optAuto opts = true) (hc : optControls opts = false) :
    ∃ dom : CarouselDom,
      create true urls opts = CreateResult.built dom ∧
      dom.rideAttr = true ∧
      dom.cfgRide = true ∧
      dom.cfgInterval = some (optInterval opts) ∧
      dom.hasControls = false ∧
      dom.items.map Prod.fst = urls ∧
      dom.items.map Prod.snd = true :: List.replicate (urls.length - 1) false := by
  refine ⟨{ rideAttr := optAuto opts
            intervalAttr :=
              if optInterval opts ≠ 0 then some (optInterval opts) else none
            items := urls.enum.map (fun e => (e.2, e.1 == 0))
            hasControls := optControls opts
            cfgRide := optAuto opts
            cfgInterval :=
              if optAuto opts then some (optInterval opts) else none },
    ?_, ha, ha, by rw [ha]; rfl, hc, ?_, ?_⟩
  · unfold create
    rw [if_neg (by simp), if_neg (by simpa [List.isEmpty_iff] using hu)]
  · exact enumFrom_pair_fst urls 0
  · obtain ⟨u, rest, rfl⟩ := List.exists_cons_of_ne_nil hu
    show ((List.enumFrom 0 (u :: rest)).map
      (fun e : Nat × String => (e.2, e.1 == 0))).map Prod.snd = _
    simp only [List.enumFrom_cons, List.map_cons]
    rw [enumFrom_pair_snd rest 0]
    simp

/-- Concrete instantiation of `create_auto_spec`: two URLs with empty
options (all defaults). -/
theorem create_auto_spec_witness :
    ∃ dom : CarouselDom,
      create true [("a"), ("b")] ⟨none, none, none⟩ = CreateResult.built dom ∧
      dom.rideAttr = true ∧
      dom.cfgRide = true ∧
      dom.cfgInterval = some (optInterval ⟨none, none, none⟩) ∧
      dom.hasControls = false ∧
      dom.items.map Prod.fst = [("a"), ("b")] ∧
      dom.items.map Prod.snd
        = true :: List.replicate ([("a"), ("b")].length - 1) false :=
  create_auto_spec [("a"), ("b")] ⟨none, none, none⟩ (by decide) rfl rfl

/-! ### HTML escaping (`escapeHtml`) and the HTML builders

`escapeHtml` chains five global replacements: `&` to `&amp;`, then `<` to
`&lt;`, `>` to `&gt;`, `"` to `&quot;`, `'` to `&#039;`.  Each pattern is a
single character, the first pass does not revisit the `&` it inserts, and
no replacement string contains a character that a later pass targets, so
the chain acts independently on each character of the input; we embed it
as that per-character action. -/

/-- The combined effect of the five replacements on one character. -/
def escChar (c : Char) : List Char :=
  if c = '&' then ['&', 'a', 'm', 'p', ';']
  else if c = '<' then ['&', 'l', 't', ';']
  else if c = '>' then ['&', 'g', 't', ';']
  else if c = '"' then ['&', 'q', 'u', 'o', 't', ';']
  else if c = '\'' then ['&', '#', '0', '3', '9', ';']
  else [c]

/-- `escapeHtml` (identical in `ProductsPage`, `UIManager` and
`ProductDetailPage`). -/
def escapeHtml (s : String) : String :=
  String.mk ((s.data.map escChar).flatten)

/-- The tails of the five emitted entities (after the leading `&`). -/
def entityTails : List (List Char) :=
  [['a', 'm', 'p', ';'], ['l', 't', ';'], ['g', 't', ';'],
   ['q', 'u', 'o', 't', ';'], ['#', '0', '3', '9', ';']]

/-- Every `&` in the list starts one of the five emitted entities. -/
def ampOkB : List Char → Bool
  | [] => true
  | '&' :: rest => entityTails.any (fun t => prefixB t rest) && ampOkB rest
  | _ :: rest => ampOkB rest

/-- JavaScript `s || d` for strings: the empty string is falsy. -/
def jsOr (s d : String) : String := if s = "" then d else s

/-- Model of `number.toFixed(2)` for the catalog's decimal prices: round to
hundredths and print with exactly two decimal places. -/
def toFixed2 (q : ℚ) : String :=
  let n : Int := round (q * 100)
  let sign := if n < 0 then "-" else ""
  let m := n.natAbs
  sign ++ toString (m / 100) ++ "." ++
    (if m % 100 < 10 then "0" else "") ++ toString (m % 100)

/-! The constant segments of the card template
(`ProductsPage.createProductCard`), split at the `$`-interpolations. -/

def cardSeg0 : String :=
  "\n            <div class=\"product-card\" role=\"listitem\">\n                <div class=\"product-image product-image-carousel\" data-folder=\""

def cardSeg1 : String :=
  "\"></div>\n                <div class=\"product-info\">\n                    <span class=\"product-category\">"

def cardSeg2 : String :=
  "</span>\n                    <h3 class=\"product-name\">"

def cardSeg3 : String :=
  "</h3>\n                    <p class=\"product-description\">"

def cardSeg4 : String :=
  "</p>\n                    <div class=\"product-price\">₹"

def cardSeg5 : String :=
  "</div>\n                    <div class=\"product-actions\">\n                        <a href=\"product-detail.html?id="

def cardSeg6 : String :=
  "\" class=\"btn btn-sm btn-secondary\">Details</a>\n                    </div>\n                </div>\n            </div>\n        "

/-- `ProductsPage.createProductCard`: the template literal with its five
interpolations — encoded icon folder, escaped category (defaulted to
`Medicine`), escaped name, escaped description, fixed-point price, and the
product id in the details link.  `encodeURIComponent` is the parameter
`enc`. -/
def createProductCard (enc : String → String) (p : Product) : String :=
  cardSeg0 ++ enc (jsOr p.icon ("")) ++ cardSeg1 ++
    escapeHtml (jsOr p.category ("Medicine")) ++ cardSeg2 ++
    escapeHtml p.name ++ cardSeg3 ++
    escapeHtml p.description ++ cardSeg4 ++
    toFixed2 p.price ++ cardSeg5 ++
    toString p.id ++ cardSeg6

/-! The constant segments of the detail template
(`ProductDetailPage.displayProductDetail`). -/

def dSeg0 : String :=
  "\n            <div class=\"product-detail-grid\">\n                <div class=\"product-detail-image product-detail-carousel\" data-folder=\""

def dSeg1 : String :=
  "\">\n                </div>\n\n                <div class=\"product-detail-info\">\n                    <h1>"

def dSeg2 : String :=
  "</h1>\n                    \n                    <div class=\"product-meta\">\n                        <div class=\"meta-item\">\n                            <span class=\"meta-label\">Category</span>\n                            <span class=\"meta-value\" style=\"text-transform: capitalize;\">"

def dSeg3 : String :=
  "</span>\n                        </div>\n                    </div>\n\n                    <p class=\"product-description-full\">\n                        "

def dSeg4 : String :=
  "\n                    </p>\n\n                    <div class=\"product-features\">\n                        <h3>Key Information</h3>\n                        <p>"

def dSeg5 : String :=
  "</p>\n                    </div>\n\n                    <div class=\"product-price-display\">\n                        ₹"

def dSeg6 : String :=
  "\n                    </div>\n\n                    <div class=\"action-buttons\">\n                        <a href=\"index.html\" class=\"btn btn-primary btn-lg\">Browse More Products</a>\n                        <a href=\"../contact/index.html\" class=\"btn btn-secondary btn-lg\">Inquire Now</a>\n                    </div>\n                </div>\n            </div>\n        "

/-- The `detailHTML` template of `ProductDetailPage.displayProductDetail`:
escaped name, escaped category (defaulted), escaped description, escaped
details, fixed-point price. -/
def detailInfoHtml (enc : String → String) (p : Product) : String :=
  dSeg0 ++ enc (jsOr p.icon ("")) ++ dSeg1 ++
    escapeHtml p.name ++ dSeg2 ++
    escapeHtml (jsOr p.category ("Medicine")) ++ dSeg3 ++
    escapeHtml p.description ++ dSeg4 ++
    escapeHtml p.details ++ dSeg5 ++
    toFixed2 p.price ++ dSeg6

/-! #### Character-level properties of the escape -/

theorem escChar_safe (c : Char) :
    '<' ∉ escChar c ∧ '>' ∉ escChar c ∧ '"' ∉ escChar c ∧ '\'' ∉ escChar c := by
  unfold escChar
  split_ifs with h1 h2 h3 h4 h5
  · exact ⟨by decide, by decide, by decide, by decide⟩
  · exact ⟨by decide, by decide, by decide, by decide⟩
  · exact ⟨by decide, by decide, by decide, by decide⟩
  · exact ⟨by decide, by decide, by decide, by decide⟩
  · exact ⟨by decide, by decide, by decide, by decide⟩
  · refine ⟨?_, ?_, ?_, ?_⟩ <;> simp only [List.mem_singleton] <;> intro h
    · exact h2 h.symm
    · exact h3 h.symm
    · exact h4 h.symm
    · exact h5 h.symm

theorem ampOkB_escChar_append (c : Char) (t : List Char) :
    ampOkB (escChar c ++ t) = ampOkB t := by
  unfold escChar
  split_ifs with h1 h2 h3 h4 h5 <;>
    simp [ampOkB, entityTails, prefixB, h1]

theorem escJoin_props :
    ∀ l : List Char,
      '<' ∉ (l.map escChar).flatten ∧ '>' ∉ (l.map escChar).flatten ∧
      '"' ∉ (l.map escChar).flatten ∧ '\'' ∉ (l.map escChar).flatten ∧
      ampOkB ((l.map escChar).flatten) = true := by
  intro l
  induction l with
  | nil => exact ⟨by simp, by simp, by simp, by simp, rfl⟩
  | cons c rest ih =>
    simp only [List.map_cons, List.flatten_cons]
    have hc := escChar_safe c
    refine ⟨?_, ?_, ?_, ?_, ?_⟩
    · simp only [List.mem_append]
      rintro (h | h)
      · exact hc.1 h
      · exact ih.1 h
    · simp only [List.mem_append]
      rintro (h | h)
      · exact hc.2.1 h
      · exact ih.2.1 h
    · simp only [List.mem_append]
      rintro (h | h)
      · exact hc.2.2.1 h
      · exact ih.2.2.1 h
    · simp only [List.mem_append]
      rintro (h | h)
      · exact hc.2.2.2 h
      · exact ih.2.2.2.1 h
    · rw [ampOkB_escChar_append]
      exact ih.2.2.2.2

/-- Claim C10: for every input string, `escapeHtml` emits no literal `<`,
`>`, `"` or `'`, and every `&` of its output starts one of the five emitted
entities (`&amp;`, `&lt;`, `&gt;`, `&quot;`, `&#039;`); and in both the
product-card template and the detail template every product name and
description (and category/details where present) is embedded through
`escapeHtml`, so untrusted product text cannot inject markup. -/
theorem escapeHtml_spec (s : String) (p : Product) (enc : String → String) :
    ('<' ∉ (escapeHtml s).data ∧ '>' ∉ (escapeHtml s).data ∧
      '"' ∉ (escapeHtml s).data ∧ '\'' ∉ (escapeHtml s).data ∧
      ampOkB (escapeHtml s).data = true) ∧
    createProductCard enc p =
      cardSeg0 ++ enc (jsOr p.icon ("")) ++ cardSeg1 ++
        escapeHtml (jsOr p.category ("Medicine")) ++ cardSeg2 ++
        escapeHtml p.name ++ cardSeg3 ++
        escapeHtml p.description ++ cardSeg4 ++
        toFixed2 p.price ++ cardSeg5 ++
        toString p.id ++ cardSeg6 ∧
    detailInfoHtml enc p =
      dSeg0 ++ enc (jsOr p.icon ("")) ++ dSeg1 ++
        escapeHtml p.name ++ dSeg2 ++
        escapeHtml (jsOr p.category ("Medicine")) ++ dSeg3 ++
        escapeHtml p.description ++ dSeg4 ++
        escapeHtml p.details ++ dSeg5 ++
        toFixed2 p.price ++ dSeg6 := by
  exact ⟨escJoin_props s.data, rfl, rfl⟩

end RPharma
